import Mathlib

/-!
Verification of the COSMOS-Omega core: policy decision engine, sandboxed
execution engine outcome logic, fitness evaluators, and the evolutionary
selection/mutation step, shallowly embedded from the Python sources
(`cosmos/foundry/titans_pathfinder.py`, `cosmos/foundry/titans_sentinel.py`,
`cosmos/foundry/foundry_sentinel.py`,
`scripts/run_pathfinder_experiment.py`).

Floats are modelled as rationals.  Python dictionaries are modelled as
records with `Option` fields (for keys that may be absent) or association
lists.  Code that can raise an exception is modelled in `Except Unit`.
-/

/-- A policy decision-tree node, embedding the Python dict consumed by
`ExecutionTitan._evaluate_policy_node` (titans_pathfinder.py).  Each field
models one of the keys the evaluator reads (`node.get('type')`,
`node['metric']`, `node['operator']`, `node['value']`, `'children' in node`);
`none` means the key is absent from the dict. -/
inductive Node where
  | mk (type? : Option String) (metric? : Option String) (operator? : Option String)
       (value? : Option ℚ) (children? : Option (List Node))

/-- `type?` accessor of a `Node`. -/
def Node.type? : Node → Option String
  | .mk t _ _ _ _ => t

/-- `metric?` accessor of a `Node`. -/
def Node.metric? : Node → Option String
  | .mk _ m _ _ _ => m

/-- `operator?` accessor of a `Node`. -/
def Node.operator? : Node → Option String
  | .mk _ _ o _ _ => o

/-- `value?` accessor of a `Node`. -/
def Node.value? : Node → Option ℚ
  | .mk _ _ _ v _ => v

/-- `children?` accessor of a `Node`. -/
def Node.children? : Node → Option (List Node)
  | .mk _ _ _ _ c => c

/-- The empty dict `{}` used as the default for `.get('active_policy', {})`
and `.get('condition', {})` in the monitoring loop. -/
def emptyNode : Node := .mk none none none none none

/-- The comparison dispatch of the `rule` branch of
`_evaluate_policy_node`: `GT`/`LT`/`EQ`/`NEQ`, any other operator falls
through to `return False`. -/
def applyRuleOp (op : String) (observed value : ℚ) : Bool :=
  if op = "GT" then decide (value < observed)
  else if op = "LT" then decide (observed < value)
  else if op = "EQ" then decide (observed = value)
  else if op = "NEQ" then decide (¬ observed = value)
  else false

/-- The combinator dispatch of `_evaluate_policy_node` applied to the list of
child outcomes: `AND`/`OR`/`NAND`/`NOR`/`XOR` (`XOR` counts exactly one true
child), any other operator falls through to `return False`. -/
def applyCombinator (op : String) (outcomes : List Bool) : Bool :=
  if op = "AND" then outcomes.all id
  else if op = "OR" then outcomes.any id
  else if op = "NAND" then ! outcomes.all id
  else if op = "NOR" then ! outcomes.any id
  else if op = "XOR" then decide (outcomes.countP id = 1)
  else false

mutual
/-- `ExecutionTitan._evaluate_policy_node(node, telemetry_reading)`
(titans_pathfinder.py).  The reading is the dict lookup
`telemetry_reading.get`.  `Except.error ()` models an uncaught `KeyError`
(`node['metric']`, `node['operator']`, `node['value']` on a dict missing
that key).  A rule whose metric is absent from the reading yields
`Except.ok false`; a node that is neither `rule`-typed nor carries
`children` yields `Except.ok false`. -/
def evalNode (node : Node) (reading : String → Option ℚ) : Except Unit Bool :=
  match node with
  | .mk t? m? o? v? c? =>
    if t? = some "rule" then
      match m?, o?, v? with
      | some metric, some op, some value =>
        match reading metric with
        | none => .ok false
        | some observed => .ok (applyRuleOp op observed value)
      | _, _, _ => .error ()
    else
      match c? with
      | some cs => do
        let outcomes ← evalNodes cs reading
        match o? with
        | some op => .ok (applyCombinator op outcomes)
        | none => .error ()
      | none => .ok false

/-- The list comprehension
`[self._evaluate_policy_node(c, telemetry_reading) for c in node['children']]`:
evaluates every child in order, propagating the first exception. -/
def evalNodes (nodes : List Node) (reading : String → Option ℚ) : Except Unit (List Bool) :=
  match nodes with
  | [] => .ok []
  | n :: ns => do
    let b ← evalNode n reading
    let bs ← evalNodes ns reading
    .ok (b :: bs)
end

/-- A convenient concrete reading for examples: every metric reads 10. -/
def readingTen : String → Option ℚ := fun _ => some 10

/-! ## Run outcomes and the sandboxed execution engines -/

/-- The run outcome vocabulary of both `instrumented_run` variants. -/
inductive Outcome where
  | survived | crashed | timed_out | policy_violation | unknown_error
deriving DecidableEq

/-- How `proc.communicate(input=payload, timeout=timeout)` resolves, as seen
by the supervising thread: a reaped process with an exit code, a
`subprocess.TimeoutExpired`, or some other exception raised inside the
`try` block (e.g. a spawn failure). -/
inductive CommResult where
  | exit (code : Int)
  | timeout
  | spawnError
deriving DecidableEq

/-- Outcome resolution of `ExecutionTitan.instrumented_run`
(titans_pathfinder.py).  `violation` says whether the monitor thread had
executed `outcome = 'policy_violation'` by the time the main thread resolves
the outcome.  The code initializes `outcome = 'unknown_error'`; after a
normal `communicate` it replaces `unknown_error` by `survived`/`crashed`
from the return code; the `except subprocess.TimeoutExpired` handler
overwrites the outcome with `timed_out` unconditionally; any other exception
propagates out of the function, so no outcome is returned (`none`). -/
def pathfinderOutcome (violation : Bool) (comm : CommResult) : Option Outcome :=
  match comm with
  | .timeout => some .timed_out
  | .spawnError => none
  | .exit code =>
    let outcome := if violation then Outcome.policy_violation else .unknown_error
    some (if outcome = .unknown_error then (if code = 0 then .survived else .crashed) else outcome)

/-- One telemetry reading appended by the pathfinder monitor thread
(`titans_pathfinder.py`, the five-key dict built under `p.oneshot()`). -/
structure ReadingP where
  cpu_percent_total : ℚ
  memory_rss_bytes : ℚ
  io_read_bytes : ℚ
  io_write_bytes : ℚ
  num_threads : ℚ
deriving DecidableEq

/-- `telemetry_reading.get(metric)` on a pathfinder reading dict. -/
def ReadingP.get (r : ReadingP) (metric : String) : Option ℚ :=
  if metric = "cpu_percent_total" then some r.cpu_percent_total
  else if metric = "memory_rss_bytes" then some r.memory_rss_bytes
  else if metric = "io_read_bytes" then some r.io_read_bytes
  else if metric = "io_write_bytes" then some r.io_write_bytes
  else if metric = "num_threads" then some r.num_threads
  else none

/-- The value returned by the pathfinder `instrumented_run`:
`{'outcome': outcome, 'raw_telemetry': telemetry}` — the telemetry list
collected by the monitor is returned as-is (no synthesis of a reading when
the list is empty).  `none` models the exception-propagation path. -/
def pathfinderRun (telemetry : List ReadingP) (violation : Bool) (comm : CommResult) :
    Option (Outcome × List ReadingP) :=
  (pathfinderOutcome violation comm).map fun o => (o, telemetry)

/-- One telemetry reading appended by the sentinel monitor thread
(`titans_sentinel.py`: `{'cpu_percent': cpu, 'resident_memory_bytes': mem.rss}`). -/
structure ReadingS where
  cpu_percent : ℚ
  resident_memory_bytes : ℚ
deriving DecidableEq

/-- The aggregate `telemetry_snapshot` dict of the sentinel engine. -/
structure SnapshotS where
  max_cpu_percent : ℚ
  avg_cpu_percent : ℚ
  max_resident_memory_bytes : ℚ
  avg_resident_memory_bytes : ℚ
  observation_duration_ms : ℚ
deriving DecidableEq

/-- `pandas` column maximum over a nonempty list (head plus tail fold). -/
def listMaxQ (x : ℚ) (xs : List ℚ) : ℚ := xs.foldl max x

/-- `pandas` column mean: sum divided by length. -/
def listMeanQ (l : List ℚ) : ℚ := l.sum / l.length

/-- The snapshot-aggregation block of `titans_sentinel.ExecutionTitan.instrumented_run`:
a nonempty telemetry list is aggregated (max/mean of each column, duration
`len * 50`); an empty one is replaced by the synthesized zero-impact
snapshot with duration 1 ("REFLEX FIX 2"). -/
def buildSnapshot (telemetry : List ReadingS) : SnapshotS :=
  match telemetry with
  | [] => ⟨0, 0, 0, 0, 1⟩
  | r :: rs =>
    let cpus := (r :: rs).map ReadingS.cpu_percent
    let mems := (r :: rs).map ReadingS.resident_memory_bytes
    { max_cpu_percent := listMaxQ r.cpu_percent (rs.map ReadingS.cpu_percent)
      avg_cpu_percent := listMeanQ cpus
      max_resident_memory_bytes := listMaxQ r.resident_memory_bytes (rs.map ReadingS.resident_memory_bytes)
      avg_resident_memory_bytes := listMeanQ mems
      observation_duration_ms := (r :: rs).length * 50 }

/-- Outcome resolution of `titans_sentinel.ExecutionTitan.instrumented_run`:
a reaped process yields `survived`/`crashed` from the return code,
`subprocess.TimeoutExpired` yields `timed_out`, and the generic
`except Exception` handler yields `unknown_error`.  The monitor thread never
assigns to `outcome` in this variant. -/
def sentinelOutcome (comm : CommResult) : Outcome :=
  match comm with
  | .exit code => if code = 0 then .survived else .crashed
  | .timeout => .timed_out
  | .spawnError => .unknown_error

/-- The value returned by the sentinel `instrumented_run`:
`{'outcome': outcome, 'telemetry_snapshot': snapshot}`. -/
def sentinelRun (telemetry : List ReadingS) (comm : CommResult) : Outcome × SnapshotS :=
  (sentinelOutcome comm, buildSnapshot telemetry)

/-- The sentinel monitor's per-reading enforcement test
(`genome.get('max_cpu_percent', 100) < telemetry[-1]['cpu_percent']`):
`true` means the monitor calls `p.kill()`. -/
def sentinelMonitorKills (maxCpuPercent? : Option ℚ) (lastReading : ReadingS) : Bool :=
  decide (maxCpuPercent?.getD 100 < lastReading.cpu_percent)

/-! ## The per-reading policy state-machine step (pathfinder monitor loop) -/

/-- One transition dict in a state's `transitions` list:
`t.get('condition', {})` and `t.get('target_state')`. -/
structure TransitionP where
  condition? : Option Node
  target_state? : Option String

/-- One state definition dict: `state_config.get('active_policy', {})` and
`state_config.get('transitions', [])`. -/
structure StateCfg where
  active_policy? : Option Node
  transitions? : Option (List TransitionP)

/-- The `{}` default produced by `genome.get('states', {}).get(current_state, {})`. -/
def emptyStateCfg : StateCfg := ⟨none, none⟩

/-- The genome dict as read by the pathfinder monitor loop:
`genome.get('initial_state', None)` and `genome.get('states', {})`.
States are an association list (Python dict keys are unique; lookup is by
key). -/
structure GenomeP where
  initial_state? : Option String
  states? : Option (List (String × StateCfg))

/-- `genome.get('states', {}).get(current_state, {})`: looking a possibly
absent current state (which may be `None`) up in the states dict. -/
def lookupState (genome : GenomeP) (cur : Option String) : StateCfg :=
  match cur with
  | none => emptyStateCfg
  | some s => ((genome.states?.getD []).lookup s).getD emptyStateCfg

/-- The `for t in state_config.get('transitions', []): if ...: current_state = t.get('target_state'); break`
loop: conditions are evaluated sequentially, the first true one takes
effect and stops the loop; if none is true the state is unchanged.
Exceptions in a condition evaluation propagate. -/
def firstMatch (transitions : List TransitionP) (reading : String → Option ℚ)
    (cur : Option String) : Except Unit (Option String) :=
  match transitions with
  | [] => .ok cur
  | t :: ts => do
    let b ← evalNode (t.condition?.getD emptyNode) reading
    if b then .ok t.target_state? else firstMatch ts reading cur

/-- One iteration of the pathfinder monitor loop body after the reading is
appended (titans_pathfinder.py, `monitor_thread`): evaluate the current
state's active policy (a true result kills the process and sets
`outcome = 'policy_violation'`), then — unconditionally, violation or not —
run the transition loop on the same reading.  The result is
`(next current_state, violation fired)`. -/
def monitorStep (genome : GenomeP) (cur : Option String) (reading : String → Option ℚ) :
    Except Unit (Option String × Bool) := do
  let cfg := lookupState genome cur
  let violation ← evalNode (cfg.active_policy?.getD emptyNode) reading
  let next ← firstMatch (cfg.transitions?.getD []) reading cur
  .ok (next, violation)

/-! ## Fitness evaluators -/

/-- The value of `PerformanceTitan.analyze` (the Oracle): a profile id and a
confidence map keyed by the profile id rendered as a string.  The map is
modelled already-defaulted, as `confidence.get(key, 0.0)`. -/
structure OracleResult where
  profile : Int
  confidence : String → ℚ

/-- The breakdown dict built by
`PathfinderDebugger.calculate_omega_fitness` — the penalty entries exist
only when the Correctness term is positive. -/
structure OmegaBreakdown where
  correctness : ℚ
  security : ℚ
  perfPenaltyCpu : Option ℚ
  perfPenaltyMem : Option ℚ
  elegancePenalty : Option ℚ

/-- `PathfinderDebugger.calculate_omega_fitness(truth_packet)`
(run_pathfinder_experiment.py), given: the two run outcomes, the Oracle's
analysis of the benign telemetry, the calibrated `normal_profile_id`, the
length of the attack telemetry list, the benign fingerprint means
`cpu_percent_total_mean` / `memory_rss_bytes_mean` (computed by the
pandas/feature pipeline, abstracted here as inputs), the length of the
JSON-serialized genome, and `pow15`, the floating-point map
`x ↦ x ** 1.5` (abstracted: claims do not depend on its values).  Returns
`(total_fitness, breakdown)`. -/
def calculateOmegaFitness (benignOutcome attackOutcome : Outcome)
    (benignAnalysis : OracleResult) (normalProfileId : Int)
    (attackTelemetryLen : Nat) (cpuOverhead memOverhead : ℚ)
    (genomeJsonLen : Nat) (pow15 : ℚ → ℚ) : ℚ × OmegaBreakdown :=
  let correctness : ℚ :=
    if benignOutcome = .survived then
      let confidence := benignAnalysis.confidence (toString normalProfileId)
      500 * confidence ^ 2
    else -2000
  let security : ℚ :=
    if attackOutcome ≠ .survived then
      if 0 < attackTelemetryLen then 1000 / (1 + (attackTelemetryLen : ℚ)) else 1000
    else -1000
  if 0 < correctness then
    let perfCpu := -(pow15 cpuOverhead)
    let perfMem := -(memOverhead / 10000)
    let elegance := -((genomeJsonLen : ℚ) / 50)
    (correctness + security + (perfCpu + perfMem + elegance),
     ⟨correctness, security, some perfCpu, some perfMem, some elegance⟩)
  else
    (correctness + security, ⟨correctness, security, none, none, none⟩)

/-- The breakdown dict built by `SentinelFoundry._evaluate_genome`
(foundry_sentinel.py). -/
structure SentinelBreakdown where
  correctness : ℚ
  security : ℚ
  perfPenalty : Option ℚ
  elegancePenalty : Option ℚ

/-- `SentinelFoundry._evaluate_genome` scoring (foundry_sentinel.py), given:
the benign run's outcome and Oracle profile, the attack run's outcome and
Oracle profile, the calibrated `normal_profile_id`, the benign snapshot's
`avg_cpu_percent` entry (`none` models a snapshot missing the key, default
100.0), the number of genome keys, and `pow15` as in
`calculateOmegaFitness`.  Returns `(total_fitness, breakdown)`. -/
def evaluateGenomeFitness (normalOutcome : Outcome) (normalProfile : Int)
    (attackOutcome : Outcome) (attackProfile : Int) (normalProfileId : Int)
    (avgCpuPercent? : Option ℚ) (genomeLen : Nat) (pow15 : ℚ → ℚ) :
    ℚ × SentinelBreakdown :=
  let correctness : ℚ :=
    if normalOutcome = .survived ∧ normalProfile = normalProfileId then 500 else -2000
  let security : ℚ :=
    if attackOutcome ≠ .survived ∨ (attackProfile ≠ normalProfileId ∧ attackProfile ≠ -1)
    then 1000 else -1000
  if 0 < correctness then
    let perfPenalty := -(pow15 (avgCpuPercent?.getD 100))
    let elegancePenalty := -((genomeLen : ℚ) * 10)
    (correctness + security + perfPenalty + elegancePenalty,
     ⟨correctness, security, some perfPenalty, some elegancePenalty⟩)
  else
    (correctness + security, ⟨correctness, security, none, none⟩)

/-! ## Evolutionary search: selection and mutation (foundry_sentinel.py) -/

/-- One population member of `SentinelFoundry`:
`{'genome': genome, 'fitness': ..., 'id': ...}` (the `breakdown` entry plays
no role in selection or mutation).  The genome is the parameter dict,
an association list with unique keys. -/
structure IndividualS where
  id : Nat
  fitness : ℚ
  genome : List (String × ℚ)
deriving DecidableEq

/-- Stable insertion of an individual into a fitness-descending list: the
new element goes before every element of strictly smaller fitness and after
every earlier element of greater-or-equal fitness. -/
def insertDesc (x : IndividualS) : List IndividualS → List IndividualS
  | [] => [x]
  | y :: ys => if x.fitness < y.fitness then y :: insertDesc x ys else x :: y :: ys

/-- `self.population.sort(key=lambda x: x['fitness'], reverse=True)`:
Python's sort is stable, so the result is the unique fitness-descending
reordering that preserves the relative order of equal-fitness individuals;
`sortDesc` is stable insertion sort, which computes exactly that list. -/
def sortDesc : List IndividualS → List IndividualS
  | [] => []
  | x :: xs => insertDesc x (sortDesc xs)

/-- `max(participants, key=lambda x: x['fitness'])`: the first individual
with maximal fitness (Python `max` keeps the earliest maximum); `none`
models the `ValueError` on an empty iterable. -/
def pyMaxByFitness : List IndividualS → Option IndividualS
  | [] => none
  | x :: xs => some (xs.foldl (fun best y => if best.fitness < y.fitness then y else best) x)

/-- The `while len(new_pop) < population_size` tournament loop of
`SentinelFoundry._selection`: `n` slots remain to fill and `draws k` is the
outcome of the `k`-th `random.sample(self.population, k=5)` (abstracted
randomness).  `none` models the `ValueError` raised by `random.sample` when
the population holds fewer than 5 individuals, or by `max` on an empty
sample. -/
def tournamentFill (popLen : Nat) (draws : Nat → List IndividualS) :
    Nat → Nat → Option (List IndividualS)
  | _, 0 => some []
  | k, n + 1 =>
    if popLen < 5 then none
    else do
      let winner ← pyMaxByFitness (draws k)
      let rest ← tournamentFill popLen draws (k + 1) n
      some (winner :: rest)

/-- `SentinelFoundry._selection`: sort the population by fitness descending
(stable), keep deep copies of the first `elitism_count` individuals, and
fill the remaining slots with deep copies of tournament winners.  Deep
copies are value copies, so cloning is the identity on the model. -/
def selectionStep (pop : List IndividualS) (elitismCount populationSize : Nat)
    (draws : Nat → List IndividualS) : Option (List IndividualS) :=
  let sorted := sortDesc pop
  let elites := sorted.take elitismCount
  (tournamentFill pop.length draws 0 (populationSize - elites.length)).map
    fun fill => elites ++ fill

/-- Whether `pat` is a prefix of the character list `l`. -/
def isPrefixCh : List Char → List Char → Bool
  | [], _ => true
  | _ :: _, [] => false
  | a :: as, b :: bs => a = b && isPrefixCh as bs

/-- Whether `pat` occurs as a contiguous run somewhere in the character list. -/
def hasSubCh (pat : List Char) : List Char → Bool
  | [] => isPrefixCh pat []
  | b :: bs => isPrefixCh pat (b :: bs) || hasSubCh pat bs

/-- Python's substring test `pat in s` (as in `'cpu_percent' in key_to_mutate`). -/
def strContains (s pat : String) : Bool := hasSubCh pat.data s.data

/-- The body of one mutation attempt in `SentinelFoundry._mutate_population`:
`key` is the randomly chosen key (`random.choice(list(genome.keys()))`, so
it is one of the genome's keys) and `factor` the random
`1.0 + uniform(-strength, strength)`.  The perturbed value is computed
unconditionally, but written back — clamped to `[1.0, 95.0]` — only when
the key name contains `'cpu_percent'`; otherwise the genome is returned
untouched. -/
def mutateGenome (genome : List (String × ℚ)) (key : String) (factor : ℚ) :
    List (String × ℚ) :=
  let newValue := ((genome.lookup key).getD 0) * factor
  if strContains key "cpu_percent" then
    genome.map fun p => if p.1 = key then (p.1, max 1 (min 95 newValue)) else p
  else genome

/-- The loop of `SentinelFoundry._mutate_population` carried over a list
with its running index: `for i in range(elitism_count, population_size)`,
each visited individual is mutated when `random.random() < mutation_rate`
(abstracted as `doMutate i`), with the random key and factor abstracted as
`chooseKey i` and `factor i`. -/
def mutatePopulationAux (elitismCount populationSize : Nat) (doMutate : Nat → Bool)
    (chooseKey : Nat → String) (factor : Nat → ℚ) :
    Nat → List IndividualS → List IndividualS
  | _, [] => []
  | i, ind :: rest =>
    (if elitismCount ≤ i ∧ i < populationSize ∧ doMutate i = true then
       { ind with genome := mutateGenome ind.genome (chooseKey i) (factor i) }
     else ind) :: mutatePopulationAux elitismCount populationSize doMutate chooseKey factor (i + 1) rest

/-- `SentinelFoundry._mutate_population` over the whole population. -/
def mutatePopulation (pop : List IndividualS) (elitismCount populationSize : Nat)
    (doMutate : Nat → Bool) (chooseKey : Nat → String) (factor : Nat → ℚ) :
    List IndividualS :=
  mutatePopulationAux elitismCount populationSize doMutate chooseKey factor 0 pop

/-- The sort order the claim asserts for elite selection — fitness
descending with ties broken by lower id.  Stated from the spec's words, for
comparison with `sortDesc` (the code's stable sort). -/
def insertDescById (x : IndividualS) : List IndividualS → List IndividualS
  | [] => [x]
  | y :: ys =>
    if x.fitness < y.fitness ∨ (x.fitness = y.fitness ∧ y.id < x.id) then
      y :: insertDescById x ys
    else x :: y :: ys

/-- Sorting by fitness descending, ties by lower id (the claim's order). -/
def sortDescById : List IndividualS → List IndividualS
  | [] => []
  | x :: xs => insertDescById x (sortDescById xs)

/-! ## Well-formed policy nodes and concrete fixtures -/

/-- The node dicts on which `_evaluate_policy_node` cannot raise: a
`rule`-typed dict carrying the `metric`, `operator` and `value` keys; a dict
with a `children` list that carries an `operator` key and whose children are
all well formed; or a dict with no `children` key (the fall-through
`return False` arm). -/
inductive WFNode : Node → Prop where
  | rule (m op : String) (v : ℚ) (c? : Option (List Node)) :
      WFNode (.mk (some "rule") (some m) (some op) (some v) c?)
  | comb (t? m? : Option String) (op : String) (v? : Option ℚ) (cs : List Node) :
      t? ≠ some "rule" → (∀ c ∈ cs, WFNode c) →
      WFNode (.mk t? m? (some op) v? (some cs))
  | leaf (t? m? o? : Option String) (v? : Option ℚ) : t? ≠ some "rule" →
      WFNode (.mk t? m? o? v? none)

/-- A rule node that is true under `readingTen` (10 > 5). -/
def ruleGT5 : Node := .mk (some "rule") (some "cpu_percent_total") (some "GT") (some 5) none

/-- A rule node that is false under `readingTen` (10 < 5 fails). -/
def ruleLT5 : Node := .mk (some "rule") (some "cpu_percent_total") (some "LT") (some 5) none

/-- A concrete genome for the state-machine counterexample: state `"A"` has
an always-true (under `readingTen`) active policy and a single always-true
transition targeting `"B"`. -/
def genomeAB : GenomeP :=
  ⟨some "A", some [("A", ⟨some ruleGT5, some [⟨some ruleGT5, some "B"⟩]⟩)]⟩

/-- A concrete five-member population for the selection counterexample: two
individuals tied at the top fitness listed with the higher id first. -/
def popFive : List IndividualS :=
  [⟨1, 10, [("max_cpu_percent", 30)]⟩,
   ⟨0, 10, [("max_cpu_percent", 40)]⟩,
   ⟨2, 1, [("max_cpu_percent", 20)]⟩,
   ⟨3, 1, [("max_cpu_percent", 21)]⟩,
   ⟨4, 1, [("max_cpu_percent", 22)]⟩]

/-! ## Theorems -/

/-- C7: a Combinator node with operator `XOR` evaluates to true exactly when
exactly one child evaluated true (not odd-count parity); in particular
`XOR` over `[true, true]` is false, over `[true, false]` is true, and over
`[true, true, true]` is false. -/
theorem C7_xor_exactly_one :
    (∀ (t? m? : Option String) (v? : Option ℚ) (cs : List Node)
       (reading : String → Option ℚ) (outs : List Bool),
       t? ≠ some "rule" → evalNodes cs reading = Except.ok outs →
       (evalNode (Node.mk t? m? (some "XOR") v? (some cs)) reading = Except.ok true ↔
         outs.countP id = 1))
    ∧ applyCombinator "XOR" [true, true] = false
    ∧ applyCombinator "XOR" [true, false] = true
    ∧ applyCombinator "XOR" [true, true, true] = false := by
  refine ⟨?_, by decide, by decide, by decide⟩
  intro t? m? v? cs reading outs ht h
  simp [evalNode, ht, h, applyCombinator, Except.instMonad, Except.bind]

/-- Witness for C7 at a concrete combinator with one true and one false child. -/
theorem C7_xor_exactly_one_witness :
    evalNode (Node.mk none none (some "XOR") none (some [ruleGT5, ruleLT5])) readingTen =
      Except.ok true :=
  (C7_xor_exactly_one.1 none none none [ruleGT5, ruleLT5] readingTen [true, false]
    (by decide) rfl).mpr (by decide)

/-- C9: the sentinel-variant execution engine never returns
`policy_violation`: its outcome always lies in
`{survived, crashed, timed_out, unknown_error}`; when the monitoring thread
kills the child over the `max_cpu_percent` threshold, the child's exit is
abnormal (nonzero code, or the timeout boundary), so the returned outcome
is `crashed` (or `timed_out`). -/
theorem C9_sentinel_outcome_set :
    (∀ (telemetry : List ReadingS) (comm : CommResult),
       (sentinelRun telemetry comm).1 ≠ Outcome.policy_violation ∧
       (sentinelRun telemetry comm).1 ∈
         [Outcome.survived, Outcome.crashed, Outcome.timed_out, Outcome.unknown_error])
    ∧ (∀ (telemetry : List ReadingS) (code : Int) (maxCpuPercent? : Option ℚ) (r : ReadingS),
       sentinelMonitorKills maxCpuPercent? r = true → code ≠ 0 →
       (sentinelRun telemetry (CommResult.exit code)).1 = Outcome.crashed)
    ∧ (∀ telemetry : List ReadingS,
       (sentinelRun telemetry CommResult.timeout).1 = Outcome.timed_out) := by
  refine ⟨?_, ?_, ?_⟩
  · intro t comm
    cases comm with
    | exit code =>
      by_cases h : code = 0 <;> simp [sentinelRun, sentinelOutcome, h]
    | timeout => simp [sentinelRun, sentinelOutcome]
    | spawnError => simp [sentinelRun, sentinelOutcome]
  · intro t code mc r _hk hc
    simp [sentinelRun, sentinelOutcome, hc]
  · intro t
    simp [sentinelRun, sentinelOutcome]

/-- Witness for C9: a monitor kill (threshold 50 exceeded by a reading of
60) with a nonzero exit code resolves to `crashed`. -/
theorem C9_sentinel_outcome_set_witness :
    (sentinelRun [] (CommResult.exit 1)).1 = Outcome.crashed :=
  C9_sentinel_outcome_set.2.1 [] 1 (some 50) ⟨60, 0⟩ (by decide) (by decide)

theorem lookup_cons_eq_if (k a : String) (b : ℚ) (l : List (String × ℚ)) :
    List.lookup k ((a, b) :: l) = if k = a then some b else List.lookup k l := by
  by_cases h : k = a
  · simp [List.lookup, h]
  · rw [List.lookup, beq_false_of_ne h]
    simp [h]

theorem lookup_mapUpdate_ne (l : List (String × ℚ)) (key k : String) (w : ℚ) (h : k ≠ key) :
    (l.map fun p => if p.1 = key then (p.1, w) else p).lookup k = l.lookup k := by
  induction l with
  | nil => rfl
  | cons p l ih =>
    obtain ⟨a, b⟩ := p
    by_cases hp : a = key
    · simp only [List.map_cons, if_pos hp]
      rw [lookup_cons_eq_if, lookup_cons_eq_if, ih]
      simp [hp ▸ h]
    · simp only [List.map_cons, if_neg hp]
      rw [lookup_cons_eq_if, lookup_cons_eq_if, ih]

theorem lookup_mapUpdate_self (l : List (String × ℚ)) (key : String) (w v : ℚ)
    (h : l.lookup key = some v) :
    (l.map fun p => if p.1 = key then (p.1, w) else p).lookup key = some w := by
  induction l with
  | nil => simp [List.lookup] at h
  | cons p l ih =>
    obtain ⟨a, b⟩ := p
    rw [lookup_cons_eq_if] at h
    by_cases hp : a = key
    · simp only [List.map_cons, if_pos hp]
      rw [lookup_cons_eq_if]
      simp [hp]
    · simp only [List.map_cons, if_neg hp]
      rw [lookup_cons_eq_if]
      rw [if_neg (fun hh => hp hh.symm)] at h
      rw [if_neg (fun hh => hp hh.symm)]
      exact ih h

theorem mutatePopulationAux_getElem (elitism popSize : Nat) (dm : Nat → Bool)
    (ck : Nat → String) (f : Nat → ℚ) (l : List IndividualS) :
    ∀ (start i : Nat),
      (mutatePopulationAux elitism popSize dm ck f start l)[i]? =
        (l[i]?).map fun ind =>
          if elitism ≤ start + i ∧ start + i < popSize ∧ dm (start + i) = true then
            { ind with genome := mutateGenome ind.genome (ck (start + i)) (f (start + i)) }
          else ind := by
  induction l with
  | nil => intro start i; simp [mutatePopulationAux]
  | cons ind rest ih =>
    intro start i
    cases i with
    | zero => simp [mutatePopulationAux]
    | succ j =>
      simp only [mutatePopulationAux, List.getElem?_cons_succ]
      rw [ih (start + 1) j]
      have harith : start + 1 + j = start + (j + 1) := by omega
      rw [harith]

/-- C10: in `SentinelFoundry._mutate_population` the only genome parameters
ever modified are those whose key contains the substring `'cpu_percent'`;
any write is clamped to `[1.0, 95.0]`; a mutation attempt on a key not
containing `'cpu_percent'` discards the perturbed value and leaves the
genome entirely unchanged; and each individual is either untouched (always
so below index `elitism_count`) or replaced by the single-key mutation of
its own genome. -/
theorem C10_mutation_frame :
    (∀ (genome : List (String × ℚ)) (key : String) (factor : ℚ),
       strContains key "cpu_percent" = false → mutateGenome genome key factor = genome)
    ∧ (∀ (genome : List (String × ℚ)) (key k : String) (factor : ℚ), k ≠ key →
       (mutateGenome genome key factor).lookup k = genome.lookup k)
    ∧ (∀ (genome : List (String × ℚ)) (key : String) (factor v : ℚ),
       strContains key "cpu_percent" = true → genome.lookup key = some v →
       (mutateGenome genome key factor).lookup key = some (max 1 (min 95 (v * factor))) ∧
       1 ≤ max 1 (min 95 (v * factor)) ∧ max 1 (min 95 (v * factor)) ≤ 95)
    ∧ (∀ (pop : List IndividualS) (elitism popSize : Nat) (dm : Nat → Bool)
         (ck : Nat → String) (f : Nat → ℚ) (i : Nat),
       (mutatePopulation pop elitism popSize dm ck f)[i]? =
         (pop[i]?).map fun ind =>
           if elitism ≤ i ∧ i < popSize ∧ dm i = true then
             { ind with genome := mutateGenome ind.genome (ck i) (f i) }
           else ind) := by
  refine ⟨?_, ?_, ?_, ?_⟩
  · intro genome key factor h
    simp [mutateGenome, h]
  · intro genome key k factor hk
    by_cases hs : strContains key "cpu_percent" = true
    · simp only [mutateGenome, hs, if_true]
      exact lookup_mapUpdate_ne genome key k _ hk
    · simp only [mutateGenome, hs, if_false, Bool.false_eq_true]
  · intro genome key factor v hs hv
    refine ⟨?_, le_max_left _ _, max_le (by norm_num) (min_le_left _ _)⟩
    simp only [mutateGenome, hs, if_true, hv, Option.getD_some]
    exact lookup_mapUpdate_self genome key _ _ hv
  · intro pop elitism popSize dm ck f i
    have := mutatePopulationAux_getElem elitism popSize dm ck f pop 0 i
    simpa [mutatePopulation] using this

/-- Witness for C10: a non-cpu key mutation attempt leaves the genome
unchanged; a `max_cpu_percent` write of `40 * 2` is clamped into `[1, 95]`. -/
theorem C10_mutation_frame_witness :
    mutateGenome [("io_limit", 7)] "io_limit" 3 = [("io_limit", 7)] ∧
    (mutateGenome [("max_cpu_percent", 40)] "max_cpu_percent" 2).lookup "max_cpu_percent" =
      some (max 1 (min 95 (40 * 2))) :=
  ⟨C10_mutation_frame.1 [("io_limit", 7)] "io_limit" 3 (by decide),
   (C10_mutation_frame.2.2.1 [("max_cpu_percent", 40)] "max_cpu_percent" 2 40
     (by decide) (by decide)).1⟩

theorem omega_correctness_eq (bo ao : Outcome) (an : OracleResult) (nid : Int)
    (len : Nat) (cpu mem : ℚ) (gl : Nat) (p15 : ℚ → ℚ) :
    (calculateOmegaFitness bo ao an nid len cpu mem gl p15).2.correctness =
      if bo = Outcome.survived then 500 * (an.confidence (toString nid)) ^ 2 else -2000 := by
  simp only [calculateOmegaFitness,
    apply_ite (fun p : ℚ × OmegaBreakdown => p.2.correctness), ite_self]

theorem omega_security_eq (bo ao : Outcome) (an : OracleResult) (nid : Int)
    (len : Nat) (cpu mem : ℚ) (gl : Nat) (p15 : ℚ → ℚ) :
    (calculateOmegaFitness bo ao an nid len cpu mem gl p15).2.security =
      if ao ≠ Outcome.survived then 1000 / (1 + (len : ℚ)) else -1000 := by
  have base : (calculateOmegaFitness bo ao an nid len cpu mem gl p15).2.security =
      if ao ≠ Outcome.survived then
        (if 0 < len then 1000 / (1 + (len : ℚ)) else 1000) else -1000 := by
    simp only [calculateOmegaFitness,
      apply_ite (fun p : ℚ × OmegaBreakdown => p.2.security), ite_self]
  rw [base]
  rcases Nat.eq_zero_or_pos len with h0 | hpos
  · subst h0; norm_num
  · simp [hpos]

theorem sentinel_correctness_eq (no : Outcome) (np : Int) (ao : Outcome) (ap nid : Int)
    (avg : Option ℚ) (gl : Nat) (p15 : ℚ → ℚ) :
    (evaluateGenomeFitness no np ao ap nid avg gl p15).2.correctness =
      if no = Outcome.survived ∧ np = nid then 500 else -2000 := by
  simp only [evaluateGenomeFitness,
    apply_ite (fun p : ℚ × SentinelBreakdown => p.2.correctness), ite_self]

theorem sentinel_security_eq (no : Outcome) (np : Int) (ao : Outcome) (ap nid : Int)
    (avg : Option ℚ) (gl : Nat) (p15 : ℚ → ℚ) :
    (evaluateGenomeFitness no np ao ap nid avg gl p15).2.security =
      if ao ≠ Outcome.survived ∨ (ap ≠ nid ∧ ap ≠ -1) then 1000 else -1000 := by
  simp only [evaluateGenomeFitness,
    apply_ite (fun p : ℚ × SentinelBreakdown => p.2.security), ite_self]

/-- C1 counterexample: the claim says the Correctness term is
`500 * confidence^2` exactly when the benign run survived AND the Oracle
classified the benign telemetry as the calibrated normal profile, and a
fixed `-2000` in every other case.  In `calculate_omega_fitness` the
classified profile is never compared with the normal profile: a benign run
that survived but was classified to profile 1 (normal profile 0, with
probability 1 assigned to profile `"0"`) scores `500`, not `-2000`. -/
theorem C1_correctness_term_counterexample :
    ¬ (∀ (bo ao : Outcome) (an : OracleResult) (nid : Int) (len : Nat)
         (cpu mem : ℚ) (gl : Nat) (p15 : ℚ → ℚ),
        (calculateOmegaFitness bo ao an nid len cpu mem gl p15).2.correctness =
          if bo = Outcome.survived ∧ an.profile = nid then
            500 * (an.confidence (toString nid)) ^ 2
          else -2000) := by
  intro h
  have h1 := h .survived .survived ⟨1, fun _ => 1⟩ 0 3 0 0 0 (fun _ => 0)
  rw [omega_correctness_eq] at h1
  norm_num at h1

/-- C1 (amended): in `calculate_omega_fitness` the Correctness term is
`500 * confidence^2` (confidence of the normal profile id in the benign
analysis) whenever the benign run's outcome is `survived`, regardless of
the classified profile, and `-2000` otherwise; in
`SentinelFoundry._evaluate_genome` the Correctness term is the flat `500.0`
exactly when the benign run survived AND its profile equals the calibrated
normal profile, and `-2000` otherwise (no confidence factor exists there). -/
theorem C1_correctness_term_amended :
    (∀ (bo ao : Outcome) (an : OracleResult) (nid : Int) (len : Nat)
       (cpu mem : ℚ) (gl : Nat) (p15 : ℚ → ℚ),
      (calculateOmegaFitness bo ao an nid len cpu mem gl p15).2.correctness =
        if bo = Outcome.survived then 500 * (an.confidence (toString nid)) ^ 2 else -2000)
    ∧ (∀ (no : Outcome) (np : Int) (ao : Outcome) (ap nid : Int)
         (avg : Option ℚ) (gl : Nat) (p15 : ℚ → ℚ),
      (evaluateGenomeFitness no np ao ap nid avg gl p15).2.correctness =
        if no = Outcome.survived ∧ np = nid then 500 else -2000) :=
  ⟨fun bo ao an nid len cpu mem gl p15 => omega_correctness_eq bo ao an nid len cpu mem gl p15,
   fun no np ao ap nid avg gl p15 => sentinel_correctness_eq no np ao ap nid avg gl p15⟩

/-- C2 counterexample: the claim says the Security term is positive
(`1000 / (1 + samples)`) exactly when the attack run does not survive OR is
classified to a profile other than normal and other than `-1`, and `-1000`
otherwise.  In `calculate_omega_fitness` a surviving attack always scores
`-1000` even when classified to an anomalous profile; in
`SentinelFoundry._evaluate_genome` a successful defense always scores the
flat `1000.0`, not `1000 / (1 + samples)` (with 3 samples, `250`). -/
theorem C2_security_term_counterexample :
    (¬ (∀ (bo ao : Outcome) (an atkAn : OracleResult) (nid : Int) (len : Nat)
          (cpu mem : ℚ) (gl : Nat) (p15 : ℚ → ℚ),
        (calculateOmegaFitness bo ao an nid len cpu mem gl p15).2.security =
          if ao ≠ Outcome.survived ∨ (atkAn.profile ≠ nid ∧ atkAn.profile ≠ -1) then
            1000 / (1 + (len : ℚ))
          else -1000))
    ∧ (¬ (∀ (no : Outcome) (np : Int) (ao : Outcome) (ap nid : Int)
            (avg : Option ℚ) (gl : Nat) (p15 : ℚ → ℚ) (len : Nat),
        (evaluateGenomeFitness no np ao ap nid avg gl p15).2.security =
          if ao ≠ Outcome.survived ∨ (ap ≠ nid ∧ ap ≠ -1) then
            1000 / (1 + (len : ℚ))
          else -1000)) := by
  constructor
  · intro h
    have h1 := h .survived .survived ⟨0, fun _ => 0⟩ ⟨5, fun _ => 0⟩ 0 3 0 0 0 (fun _ => 0)
    rw [omega_security_eq] at h1
    norm_num at h1
  · intro h
    have h1 := h .survived 0 .crashed 0 0 none 1 (fun _ => 0) 3
    rw [sentinel_security_eq] at h1
    simp at h1
    norm_num at h1

/-- C2 (amended): in `calculate_omega_fitness` the Security term is
`1000 / (1 + samples_observed)` exactly when the attack run's outcome is
not `survived` (the attack classification is never consulted), and `-1000`
when the attack survived; in `SentinelFoundry._evaluate_genome` the Security
term is the flat `1000.0` exactly when the attack run does not survive OR
is classified to a profile other than normal and other than `-1`, and
`-1000` otherwise (no reaction-speed factor exists there). -/
theorem C2_security_term_amended :
    (∀ (bo ao : Outcome) (an : OracleResult) (nid : Int) (len : Nat)
       (cpu mem : ℚ) (gl : Nat) (p15 : ℚ → ℚ),
      (calculateOmegaFitness bo ao an nid len cpu mem gl p15).2.security =
        if ao ≠ Outcome.survived then 1000 / (1 + (len : ℚ)) else -1000)
    ∧ (∀ (no : Outcome) (np : Int) (ao : Outcome) (ap nid : Int)
         (avg : Option ℚ) (gl : Nat) (p15 : ℚ → ℚ),
      (evaluateGenomeFitness no np ao ap nid avg gl p15).2.security =
        if ao ≠ Outcome.survived ∨ (ap ≠ nid ∧ ap ≠ -1) then 1000 else -1000) :=
  ⟨fun bo ao an nid len cpu mem gl p15 => omega_security_eq bo ao an nid len cpu mem gl p15,
   fun no np ao ap nid avg gl p15 => sentinel_security_eq no np ao ap nid avg gl p15⟩

/-- C4 counterexample: the claim says every run whose target exits before
one sampling interval still yields a non-empty telemetry result with a
synthesized zero-impact reading, so the Fitness Evaluator and Oracle never
receive an empty telemetry sequence for a `survived` run.  The pathfinder
engine (`titans_pathfinder.instrumented_run`) returns its raw telemetry
list as-is: a clean instant exit yields `survived` together with the empty
list. -/
theorem C4_empty_telemetry_counterexample :
    ¬ (∀ (violation : Bool) (comm : CommResult) (out : Outcome × List ReadingP),
        pathfinderRun [] violation comm = some out →
        out.1 = Outcome.survived → out.2 ≠ []) := by
  intro h
  exact absurd rfl (h false (.exit 0) (Outcome.survived, ([] : List ReadingP)) rfl rfl)

/-- C4 (amended): the sentinel engine (`titans_sentinel.instrumented_run`)
does synthesize the zero-impact snapshot when no sample was taken, and a
clean fast exit there yields `survived`; the pathfinder engine returns the
collected raw-telemetry list unchanged, so its downstream consumers can
receive an empty sequence for a `survived` run (they guard for it
themselves). -/
theorem C4_empty_telemetry_amended :
    (∀ comm : CommResult, (sentinelRun [] comm).2 = ⟨0, 0, 0, 0, 1⟩)
    ∧ (sentinelRun [] (CommResult.exit 0)).1 = Outcome.survived
    ∧ (∀ (telemetry : List ReadingP) (violation : Bool) (comm : CommResult)
         (out : Outcome × List ReadingP),
       pathfinderRun telemetry violation comm = some out → out.2 = telemetry) := by
  refine ⟨fun _ => rfl, rfl, ?_⟩
  intro telemetry violation comm out h
  obtain ⟨o, _, hf⟩ := Option.map_eq_some'.mp h
  rw [← hf]

/-- Witness for C4 (amended): a pathfinder run with one collected reading
returns exactly that list. -/
theorem C4_empty_telemetry_amended_witness :
    (Outcome.survived, ([⟨1, 2, 3, 4, 5⟩] : List ReadingP)).2 = [(⟨1, 2, 3, 4, 5⟩ : ReadingP)] :=
  C4_empty_telemetry_amended.2.2 [⟨1, 2, 3, 4, 5⟩] false (.exit 0)
    (Outcome.survived, [⟨1, 2, 3, 4, 5⟩]) rfl

/-- C6 counterexample: the claim gives `policy_violation` (once set) the
highest resolution priority.  In the pathfinder engine the
`except subprocess.TimeoutExpired` handler assigns `timed_out`
unconditionally, so a run whose monitor had already set `policy_violation`
but whose `communicate` call still timed out resolves to `timed_out`,
replacing the higher-priority outcome. -/
theorem C6_outcome_priority_counterexample :
    ¬ (∀ (violation : Bool) (comm : CommResult) (o : Outcome),
        pathfinderOutcome violation comm = some o →
          o ∈ [Outcome.survived, Outcome.crashed, Outcome.timed_out,
               Outcome.policy_violation, Outcome.unknown_error] ∧
          (violation = true → o = Outcome.policy_violation)) := by
  intro h
  have h1 := (h true CommResult.timeout Outcome.timed_out rfl).2 rfl
  exact absurd h1 (by decide)

/-- C6 (amended): every returned outcome lies in the claimed five-element
vocabulary, but the priority is `timed_out` over `policy_violation` over
`crashed`/`survived`: a timeout overwrites an already-set
`policy_violation`, and without a timeout an established `policy_violation`
is never replaced; with no violation a reaped process resolves by exit
code.  (Engine-internal failures propagate as exceptions instead of
returning `unknown_error`.) -/
theorem C6_outcome_priority_amended :
    ∀ (violation : Bool) (comm : CommResult) (o : Outcome),
      pathfinderOutcome violation comm = some o →
        o ∈ [Outcome.survived, Outcome.crashed, Outcome.timed_out,
             Outcome.policy_violation, Outcome.unknown_error] ∧
        (comm = CommResult.timeout → o = Outcome.timed_out) ∧
        (violation = true → comm ≠ CommResult.timeout → o = Outcome.policy_violation) ∧
        (violation = false → ∀ code : Int, comm = CommResult.exit code →
          o = if code = 0 then Outcome.survived else Outcome.crashed) := by
  intro violation comm o h
  cases comm with
  | spawnError => simp [pathfinderOutcome] at h
  | timeout =>
    have ho : o = Outcome.timed_out := by
      simpa [pathfinderOutcome] using h.symm
    subst ho
    refine ⟨by decide, fun _ => rfl, ?_, ?_⟩
    · intro _ hne
      exact absurd rfl hne
    · intro _ code hc
      exact absurd hc (by simp)
  | exit code =>
    cases violation with
    | true =>
      have ho : o = Outcome.policy_violation := by
        simpa [pathfinderOutcome] using h.symm
      subst ho
      refine ⟨by decide, ?_, fun _ _ => rfl, ?_⟩
      · intro hc
        exact absurd hc (by simp)
      · intro hv
        exact absurd hv (by simp)
    | false =>
      have ho : o = if code = 0 then Outcome.survived else Outcome.crashed := by
        simpa [pathfinderOutcome] using h.symm
      subst ho
      refine ⟨?_, ?_, ?_, ?_⟩
      · by_cases hc : code = 0 <;> simp [hc]
      · intro hc
        exact absurd hc (by simp)
      · intro hv
        exact absurd hv (by simp)
      · intro _ code' hc
        injection hc with hcc
        subst hcc
        rfl

/-- Witness for C6 (amended) at a violation-flagged run whose process was
reaped with exit code 3 (no timeout): the outcome is `policy_violation`. -/
theorem C6_outcome_priority_amended_witness :
    Outcome.policy_violation ∈ [Outcome.survived, Outcome.crashed, Outcome.timed_out,
        Outcome.policy_violation, Outcome.unknown_error] ∧
      (CommResult.exit 3 = CommResult.timeout → Outcome.policy_violation = Outcome.timed_out) ∧
      (true = true → CommResult.exit 3 ≠ CommResult.timeout →
        Outcome.policy_violation = Outcome.policy_violation) ∧
      (true = false → ∀ code : Int, CommResult.exit 3 = CommResult.exit code →
        Outcome.policy_violation = if code = 0 then Outcome.survived else Outcome.crashed) :=
  C6_outcome_priority_amended true (CommResult.exit 3) Outcome.policy_violation rfl

/-- C3 counterexample: the claim says that when a state's active policy is
true for a reading, none of that state's transition conditions are
evaluated for the same reading.  In the pathfinder monitor loop the
transition `for`-loop runs unconditionally after the violation branch: in
`genomeAB` (always-true policy, always-true transition to `"B"`) the step
both fires the violation and moves the state to `"B"`. -/
theorem C3_policy_step_counterexample :
    ¬ (∀ (genome : GenomeP) (cur : Option String) (reading : String → Option ℚ)
         (next : Option String) (viol : Bool),
        monitorStep genome cur reading = Except.ok (next, viol) →
        viol = true → next = cur) := by
  intro h
  have h1 := h genomeAB (some "A") readingTen (some "B") true rfl rfl
  exact absurd h1 (by decide)

/-- C3 (amended): the per-reading step evaluates the active policy (a true
result kills the process and records `policy_violation`) and then — whether
or not the policy fired — evaluates the transition conditions in list
order; the first true condition determines the next state and stops the
loop (later matches have no effect), and if none is true the state is
unchanged. -/
theorem C3_state_machine_step_amended :
    (∀ (genome : GenomeP) (cur : Option String) (reading : String → Option ℚ)
       (polB : Bool) (next : Option String),
      evalNode ((lookupState genome cur).active_policy?.getD emptyNode) reading =
        Except.ok polB →
      firstMatch ((lookupState genome cur).transitions?.getD []) reading cur =
        Except.ok next →
      monitorStep genome cur reading = Except.ok (next, polB))
    ∧ (∀ (ts : List TransitionP) (reading : String → Option ℚ) (cur : Option String),
       (∀ t ∈ ts, evalNode (t.condition?.getD emptyNode) reading = Except.ok false) →
       firstMatch ts reading cur = Except.ok cur)
    ∧ (∀ (pre : List TransitionP) (t : TransitionP) (post : List TransitionP)
         (reading : String → Option ℚ) (cur : Option String),
       (∀ t' ∈ pre, evalNode (t'.condition?.getD emptyNode) reading = Except.ok false) →
       evalNode (t.condition?.getD emptyNode) reading = Except.ok true →
       firstMatch (pre ++ t :: post) reading cur = Except.ok t.target_state?) := by
  refine ⟨?_, ?_, ?_⟩
  · intro genome cur reading polB next h1 h2
    simp [monitorStep, h1, h2, Except.instMonad, Except.bind]
  · intro ts reading cur h
    induction ts with
    | nil => rfl
    | cons t ts ih =>
      have ht := h t (List.mem_cons_self t ts)
      have hrest := ih fun t' ht' => h t' (List.mem_cons_of_mem t ht')
      simp [firstMatch, ht, hrest, Except.instMonad, Except.bind]
  · intro pre t post reading cur hpre ht
    induction pre with
    | nil => simp [firstMatch, ht, Except.instMonad, Except.bind]
    | cons t' pre ih =>
      have ht' := hpre t' (List.mem_cons_self t' pre)
      have hrest := ih fun t'' ht'' => hpre t'' (List.mem_cons_of_mem t' ht'')
      simp [firstMatch, ht', hrest, Except.instMonad, Except.bind]

/-- Witness for C3 (amended): with a false-condition transition listed
first, a true-condition transition to `"B"` second and another matching
transition to `"D"` after it, the step moves to `"B"`. -/
theorem C3_state_machine_step_amended_witness :
    firstMatch [⟨some ruleLT5, some "C"⟩, ⟨some ruleGT5, some "B"⟩, ⟨some ruleGT5, some "D"⟩]
      readingTen (some "A") = Except.ok (some "B") :=
  C3_state_machine_step_amended.2.2 [⟨some ruleLT5, some "C"⟩] ⟨some ruleGT5, some "B"⟩
    [⟨some ruleGT5, some "D"⟩] readingTen (some "A")
    (fun t' ht' => by
      simp only [List.mem_singleton] at ht'
      subst ht'
      rfl) rfl

theorem evalNodes_total (cs : List Node) (reading : String → Option ℚ)
    (h : ∀ c ∈ cs, ∃ b, evalNode c reading = Except.ok b) :
    ∃ bs, evalNodes cs reading = Except.ok bs := by
  induction cs with
  | nil => exact ⟨[], rfl⟩
  | cons c cs ih =>
    obtain ⟨b, hb⟩ := h c (List.mem_cons_self c cs)
    obtain ⟨bs, hbs⟩ := ih fun c' hc' => h c' (List.mem_cons_of_mem c hc')
    exact ⟨b :: bs, by simp [evalNodes, hb, hbs, Except.instMonad, Except.bind]⟩

theorem evalNode_total_of_wf (node : Node) (reading : String → Option ℚ)
    (h : WFNode node) : ∃ b, evalNode node reading = Except.ok b := by
  induction h with
  | rule m op v c? =>
    cases hr : reading m with
    | none => exact ⟨false, by simp [evalNode, hr]⟩
    | some x => exact ⟨applyRuleOp op x v, by simp [evalNode, hr]⟩
  | comb t? m? op v? cs hne _ ih =>
    obtain ⟨bs, hbs⟩ := evalNodes_total cs reading ih
    exact ⟨applyCombinator op bs,
      by simp [evalNode, hne, hbs, Except.instMonad, Except.bind]⟩
  | leaf t? m? o? v? hne =>
    exact ⟨false, by simp [evalNode, hne]⟩

/-- C5 counterexample: the claim says the evaluator is total for every node
dict.  A dict `{'type': 'rule'}` with no `metric`/`operator`/`value` keys
raises `KeyError` at `node['metric']` (modelled as `Except.error`), so no
boolean is returned. -/
theorem C5_evaluator_total_counterexample :
    ¬ (∀ (node : Node) (reading : String → Option ℚ),
        ∃ b, evalNode node reading = Except.ok b) := by
  intro h
  obtain ⟨b, hb⟩ := h (Node.mk (some "rule") none none none none) readingTen
  simp [evalNode] at hb

/-- C5 (amended): the evaluator is total and fail-closed on well-formed
node dicts (rule nodes carrying `metric`/`operator`/`value`, combinator
nodes carrying `operator`): a rule whose metric is absent from the reading
is false, a rule or combinator with an unrecognized operator is false, and
a node with neither `rule` type nor `children` is false.  A `rule`-typed
dict missing one of its three keys, or a dict with `children` but no
`operator`, raises `KeyError` instead (see the counterexample). -/
theorem C5_evaluator_total_amended :
    (∀ (node : Node) (reading : String → Option ℚ), WFNode node →
       ∃ b, evalNode node reading = Except.ok b)
    ∧ (∀ (m op : String) (v : ℚ) (c? : Option (List Node)) (reading : String → Option ℚ),
       reading m = none →
       evalNode (Node.mk (some "rule") (some m) (some op) (some v) c?) reading =
         Except.ok false)
    ∧ (∀ (m op : String) (v x : ℚ) (c? : Option (List Node)) (reading : String → Option ℚ),
       reading m = some x →
       op ≠ "GT" → op ≠ "LT" → op ≠ "EQ" → op ≠ "NEQ" →
       evalNode (Node.mk (some "rule") (some m) (some op) (some v) c?) reading =
         Except.ok false)
    ∧ (∀ (t? m? : Option String) (op : String) (v? : Option ℚ) (cs : List Node)
         (reading : String → Option ℚ) (outs : List Bool),
       t? ≠ some "rule" → evalNodes cs reading = Except.ok outs →
       op ≠ "AND" → op ≠ "OR" → op ≠ "NAND" → op ≠ "NOR" → op ≠ "XOR" →
       evalNode (Node.mk t? m? (some op) v? (some cs)) reading = Except.ok false)
    ∧ (∀ (t? m? o? : Option String) (v? : Option ℚ) (reading : String → Option ℚ),
       t? ≠ some "rule" →
       evalNode (Node.mk t? m? o? v? none) reading = Except.ok false) := by
  refine ⟨evalNode_total_of_wf, ?_, ?_, ?_, ?_⟩
  · intro m op v c? reading hm
    simp [evalNode, hm]
  · intro m op v x c? reading hm h1 h2 h3 h4
    simp [evalNode, hm, applyRuleOp, h1, h2, h3, h4]
  · intro t? m? op v? cs reading outs ht hcs h1 h2 h3 h4 h5
    simp [evalNode, ht, hcs, applyCombinator, h1, h2, h3, h4, h5,
      Except.instMonad, Except.bind]
  · intro t? m? o? v? reading ht
    simp [evalNode, ht]

/-- Witness for C5 (amended): a well-formed rule evaluates to a boolean,
and a rule over a metric missing from the reading evaluates to false. -/
theorem C5_evaluator_total_amended_witness :
    (∃ b, evalNode ruleGT5 readingTen = Except.ok b) ∧
    evalNode (Node.mk (some "rule") (some "missing_metric") (some "GT") (some 5) none)
      (fun _ => none) = Except.ok false :=
  ⟨C5_evaluator_total_amended.1 ruleGT5 readingTen
     (WFNode.rule "cpu_percent_total" "GT" 5 none),
   C5_evaluator_total_amended.2.1 "missing_metric" "GT" 5 none (fun _ => none) rfl⟩

theorem insertDesc_length (x : IndividualS) (l : List IndividualS) :
    (insertDesc x l).length = l.length + 1 := by
  induction l with
  | nil => rfl
  | cons y ys ih =>
    simp only [insertDesc]
    split <;> simp [ih]

theorem sortDesc_length (l : List IndividualS) : (sortDesc l).length = l.length := by
  induction l with
  | nil => rfl
  | cons x xs ih => simp [sortDesc, insertDesc_length, ih]

theorem tournamentFill_ok (popLen : Nat) (draws : Nat → List IndividualS)
    (h5 : 5 ≤ popLen) (hne : ∀ k, draws k ≠ []) :
    ∀ (n k : Nat), ∃ l, tournamentFill popLen draws k n = some l ∧ l.length = n := by
  intro n
  induction n with
  | zero => intro k; exact ⟨[], rfl, rfl⟩
  | succ n ih =>
    intro k
    obtain ⟨l, hl, hlen⟩ := ih (k + 1)
    have hwin : ∃ w, pyMaxByFitness (draws k) = some w := by
      cases hd : draws k with
      | nil => exact absurd hd (hne k)
      | cons a as => exact ⟨_, rfl⟩
    obtain ⟨w, hw⟩ := hwin
    refine ⟨w :: l, ?_, by simp [hlen]⟩
    have hlt : ¬ popLen < 5 := by omega
    simp [tournamentFill, hlt, hw, hl, Except.bind, Option.bind]

theorem mutatePopulationAux_length (e p : Nat) (dm : Nat → Bool) (ck : Nat → String)
    (f : Nat → ℚ) (l : List IndividualS) :
    ∀ i, (mutatePopulationAux e p dm ck f i l).length = l.length := by
  induction l with
  | nil => intro i; rfl
  | cons ind rest ih =>
    intro i
    simp [mutatePopulationAux, ih (i + 1)]

theorem mutatePopulationAux_take (e p : Nat) (dm : Nat → Bool) (ck : Nat → String)
    (f : Nat → ℚ) (l : List IndividualS) :
    ∀ (i k : Nat), i + k ≤ e →
      (mutatePopulationAux e p dm ck f i l).take k = l.take k := by
  induction l with
  | nil => intro i k _; simp [mutatePopulationAux]
  | cons ind rest ih =>
    intro i k hk
    cases k with
    | zero => simp
    | succ k' =>
      have hcond : ¬ (e ≤ i ∧ i < p ∧ dm i = true) := by
        intro hc
        omega
      simp only [mutatePopulationAux, if_neg hcond, List.take_succ_cons]
      rw [ih (i + 1) k' (by omega)]

/-- C8 counterexample: the claim orders the elites by fitness descending
with ties broken by lower id.  `_selection` uses Python's stable sort keyed
only on fitness, so ties keep their prior list position: in `popFive` the
individuals with ids 1 and 0 are tied at fitness 10 with id 1 listed first,
and with `elitism_count = 1` the preserved elite is id 1; with tournament
draws that always return the whole population and a mutation step that
perturbs every non-elite, no individual carrying id 0's genome (value 40)
survives into the next generation. -/
theorem C8_elitism_tiebreak_counterexample :
    ¬ (∀ (pop : List IndividualS) (elitismCount populationSize : Nat)
         (draws : Nat → List IndividualS) (doMutate : Nat → Bool)
         (chooseKey : Nat → String) (factor : Nat → ℚ)
         (newPop : List IndividualS),
        selectionStep pop elitismCount populationSize draws = some newPop →
        (∀ ind ∈ (sortDescById pop).take elitismCount,
           ∃ ind' ∈ mutatePopulation newPop elitismCount populationSize
               doMutate chooseKey factor,
             ind'.id = ind.id ∧ ind'.genome = ind.genome) ∧
        (mutatePopulation newPop elitismCount populationSize
            doMutate chooseKey factor).length = populationSize) := by
  intro h
  have h1 := h popFive 1 5 (fun _ => popFive) (fun _ => true)
      (fun _ => "max_cpu_percent") (fun _ => 2)
      [⟨1, 10, [("max_cpu_percent", 30)]⟩, ⟨1, 10, [("max_cpu_percent", 30)]⟩,
       ⟨1, 10, [("max_cpu_percent", 30)]⟩, ⟨1, 10, [("max_cpu_percent", 30)]⟩,
       ⟨1, 10, [("max_cpu_percent", 30)]⟩] (by decide)
  have h2 := h1.1 ⟨0, 10, [("max_cpu_percent", 40)]⟩ (by decide)
  exact absurd h2 (by decide)

/-- C8 (amended): after one `_selection` followed by `_mutate_population`,
the first `elitism_count` individuals of the stable fitness-descending sort
of the prior population (ties broken by prior list position, not by id) are
present unchanged at the head of the next generation, and the population
size equals `population_size` (given at least 5 individuals, so the
tournament's `random.sample(k=5)` is defined, and nonempty draws). -/
theorem C8_elite_preservation_amended :
    ∀ (pop : List IndividualS) (elitismCount populationSize : Nat)
      (draws : Nat → List IndividualS) (doMutate : Nat → Bool)
      (chooseKey : Nat → String) (factor : Nat → ℚ),
      pop.length = populationSize → 5 ≤ populationSize →
      elitismCount ≤ populationSize → (∀ k, draws k ≠ []) →
      ∃ newPop, selectionStep pop elitismCount populationSize draws = some newPop ∧
        (mutatePopulation newPop elitismCount populationSize
            doMutate chooseKey factor).length = populationSize ∧
        (mutatePopulation newPop elitismCount populationSize
            doMutate chooseKey factor).take elitismCount =
          (sortDesc pop).take elitismCount := by
  intro pop e p draws dm ck f hlen h5 he hne
  have hsl : (sortDesc pop).length = pop.length := sortDesc_length pop
  have helen : ((sortDesc pop).take e).length = e := by
    rw [List.length_take, hsl, hlen]
    omega
  obtain ⟨fill, hfill, hfl⟩ :=
    tournamentFill_ok pop.length draws (by omega) hne (p - ((sortDesc pop).take e).length) 0
  refine ⟨(sortDesc pop).take e ++ fill, ?_, ?_, ?_⟩
  · show (tournamentFill pop.length draws 0 (p - ((sortDesc pop).take e).length)).map
        (fun fl => (sortDesc pop).take e ++ fl) = some ((sortDesc pop).take e ++ fill)
    rw [hfill]
    rfl
  · have := mutatePopulationAux_length e p dm ck f ((sortDesc pop).take e ++ fill) 0
    rw [mutatePopulation, this, List.length_append, helen, hfl, helen]
    omega
  · rw [mutatePopulation, mutatePopulationAux_take e p dm ck f _ 0 e (by omega)]
    exact List.take_left' helen

/-- Witness for C8 (amended) on `popFive` with `elitism_count = 2`. -/
theorem C8_elite_preservation_amended_witness :
    ∃ newPop, selectionStep popFive 2 5 (fun _ => popFive) = some newPop ∧
      (mutatePopulation newPop 2 5 (fun _ => true)
          (fun _ => "max_cpu_percent") (fun _ => 3)).length = 5 ∧
      (mutatePopulation newPop 2 5 (fun _ => true)
          (fun _ => "max_cpu_percent") (fun _ => 3)).take 2 = (sortDesc popFive).take 2 :=
  C8_elite_preservation_amended popFive 2 5 (fun _ => popFive) (fun _ => true)
    (fun _ => "max_cpu_percent") (fun _ => 3) (by decide) (by decide) (by decide)
    (fun _ => by
      show popFive ≠ []
      decide)
